import Mathlib

/-!
Verification of the PMBus interrogation core (pmbus_peek.c): a shallow
embedding of the transport block-read path, the QUERY capability
negotiation, the coefficient resolver and the numeric decoders, with
theorems checking the design document's statements against the code.

Machine integers are modelled as `Nat`/`Int` with explicit reductions
(`% 65536`, `% 256`) where the C types (`u16`, `u8`, `s16`, `s8`) wrap.
The bus adapter is an oracle supplied to each operation: the environment
records which capabilities the adapter advertises and what each ioctl
would return.  Floating-point arithmetic in the decoders is modelled
over `ℚ`; on the inputs considered every C `double` operation involved
(negation, multiplication and division by small powers of 2 and 10) is
exact, so the rational model agrees with the binary64 evaluation.
-/

namespace PmbusPeek

/-- Reinterpretation of a C `int` value in `[0, 65536)` as `s16`
(two's complement), as in the cast `(s16) value`. -/
def toS16 (n : Nat) : Int :=
  if n % 65536 < 32768 then ((n % 65536 : Nat) : Int)
  else ((n % 65536 : Nat) : Int) - 65536

/-- Reinterpretation of a `u8` as `s8` (two's complement), as in the
assignment `c->R = data.block[5]` with `R` of type `s8`. -/
def toS8 (n : Nat) : Int :=
  if n % 256 < 128 then ((n % 256 : Nat) : Int)
  else ((n % 256 : Nat) : Int) - 256

/-- Conversion of a C `int` to `s8` (wrap mod 256), as in
`op->c[0].R = op->c[1].R = value` where `value` is an `int`. -/
def toS8i (v : Int) : Int :=
  if v.emod 256 < 128 then v.emod 256 else v.emod 256 - 256

/-- pmbus_peek.c `is_pmb_8bit`: pure 8 bit command. -/
def is_pmb_8bit (cmd : Nat) : Bool :=
  (cmd &&& 0xff00) == 0 && (cmd &&& 0xfe) != 0xfe

/-- pmbus_peek.c `is_pmb_extended`: 9 bit command with a second (upper)
byte. -/
def is_pmb_extended (cmd : Nat) : Bool :=
  (cmd &&& 0xfe00) == 0xfe00

/-- Linux errno values used by the C code (`<asm-generic/errno*.h>`). -/
def E2BIG : Int := 7

def Eio : Int := 5

def EINVAL : Int := 22

def EFBIG : Int := 27

def ENOSYS : Int := 38

def EOPNOTSUPP : Int := 95

/-- Command codes specifically recognised by pmbus_peek.c. -/
def PMB_QUERY : Nat := 0x1a

def PMB_VOUT_MODE : Nat := 0x20

def PMB_COEFFICIENTS : Nat := 0x30

/-- Flag `FLG_FORMAT_VOUT` (`1 << 2`) on `pmbus_cmd_desc.flags`. -/
def FLG_FORMAT_VOUT : Nat := 4

/-- struct pmbus_coefficients: validity flag, signed exponent `R` (s8),
slope `m` and intercept `b` (s16). -/
structure Coefficients where
  valid : Bool
  R : Int
  m : Int
  b : Int
deriving DecidableEq, Repr

/-- Adapter environment for one `coefficients()` exchange: which paths
the adapter advertises (`I2C_FUNC_SMBUS_BLOCK_PROC_CALL`,
`I2C_FUNC_I2C`), whether the chosen ioctl succeeds, and the response
buffer `data.block` afterwards (`resp[0]` is the declared length,
`resp[1..5]` the payload bytes). -/
structure CoefEnv where
  hasBlockProcCall : Bool
  hasI2C : Bool
  ok : Bool
  resp : List Nat
deriving DecidableEq, Repr

/-- pmbus_peek.c `coefficients()`: fetch one direction's coefficients.
The addressed slot `c = op->c + read` is passed in and the updated slot
returned.  The block-process-call path is preferred, the raw I2C
two-message exchange is the fallback, otherwise `status = -EOPNOTSUPP`;
on `status < 0` or a declared response length other than 5 the slot is
returned untouched, else `m`, `b` (little-endian s16), `R` (s8) and the
validity flag are assigned. -/
def coefficients (env : CoefEnv) (c : Coefficients) : Coefficients :=
  let status : Int :=
    if env.hasBlockProcCall then (if env.ok then 0 else -Eio)
    else if env.hasI2C then (if env.ok then 0 else -Eio)
    else -EOPNOTSUPP
  if status < 0 then c
  else if env.resp.getD 0 0 ≠ 5 then c
  else
    { valid := true
      m := toS16 (((env.resp.getD 2 0) <<< 8) ||| env.resp.getD 1 0)
      b := toS16 (((env.resp.getD 4 0) <<< 8) ||| env.resp.getD 3 0)
      R := toS8 (env.resp.getD 5 0) }

/-- pmbus_peek.c `pmbus_dev_show_values`, LINEAR display case (format
class 0, non-BITS units): the exact computation on the raw 16-bit word
`value` read by `pmbus_read_word_data`, over `ℚ`.  C precedence makes
the divisor exponent `(0x0f + 1 - (value >> 11)) & 0x0f`, i.e. the
arithmetic difference reduced mod 16. -/
def linear11Decode (value : Nat) : ℚ :=
  let d : ℚ := ((value &&& 0x3ff : Nat) : ℚ)
  let d : ℚ := if value &&& 0x400 ≠ 0 then -d else d
  if value &&& 0x8000 ≠ 0 then
    d / ((2 : ℚ) ^ (((16 - ((value >>> 11 : Nat) : Int))).emod 16).toNat)
  else if value &&& 0x7100 ≠ 0 then
    d * (2 : ℚ) ^ (value >>> 11)
  else d

/-- Repeated `d *= 10.0; r++` loop of the DIRECT decode, run `n` times. -/
def mulTenLoop (d : ℚ) : Nat → ℚ
  | 0 => d
  | n + 1 => mulTenLoop (d * 10) n

/-- Repeated `d /= 10.0; r--` loop of the DIRECT decode, run `n` times. -/
def divTenLoop (d : ℚ) : Nat → ℚ
  | 0 => d
  | n + 1 => divTenLoop (d / 10) n

/-- pmbus_peek.c `pmbus_dev_show_values`, DIRECT display case (format
class 3): `d = (s16) value`, then the repeated multiply/divide-by-10
loops driven by the coefficient exponent `R`, then `d -= b; d /= m`,
over `ℚ`. -/
def directDecode (c : Coefficients) (raw : Nat) : ℚ :=
  let d : ℚ := ((toS16 raw : Int) : ℚ)
  let d : ℚ :=
    if c.R < 0 then mulTenLoop d (-c.R).toNat
    else if 0 < c.R then divTenLoop d c.R.toNat
    else d
  (d - ((c.b : Int) : ℚ)) / ((c.m : Int) : ℚ)

/-- Adapter capability bits consulted by `pmbus_read_block`:
`I2C_FUNC_SMBUS_READ_BLOCK_DATA` and `I2C_FUNC_I2C`. -/
structure Funcs where
  smbusReadBlock : Bool
  i2c : Bool
deriving DecidableEq, Repr

/-- Adapter environment for one `pmbus_read_block` call: the result of
the one-byte length-discovery read (a byte, or a negative errno), the
outcome and response of the SMBus block-data ioctl (`smbusResp[0]` is
the device's declared count), and the outcome and response of the raw
two-message I2C fallback (`rdwrResp[0]` likewise). -/
structure BlockEnv where
  byteRead : Int
  smbusOk : Bool
  smbusErr : Int
  smbusResp : List Nat
  rdwrOk : Bool
  rdwrErr : Int
  rdwrResp : List Nat
deriving DecidableEq, Repr

/-- Result of `pmbus_read_block`: the C return value, the prefix of the
caller's buffer that was written (`memcpy` destinations only), and the
ordered trace of `ioctl(fd, I2C_PEC, ...)` toggles (`false` = disable,
`true` = enable). -/
structure BlockResult where
  retval : Int
  buf : List Nat
  pec : List Bool
deriving DecidableEq, Repr

/-- pmbus_peek.c `pmbus_read_block`: argument checks, the PEC-guarded
length-discovery byte read, the SMBus block-data attempt, and the
`try_i2c` raw-message fallback with the shared length-vs-buffer check
(`-E2BIG` with a partial copy when the declared count exceeds the
caller's buffer). -/
def pmbus_read_block (use_pec : Bool) (funcs : Funcs) (cmd : Nat)
    (read_len : Nat) (env : BlockEnv) : BlockResult :=
  if read_len = 0 then ⟨-EINVAL, [], []⟩
  else if is_pmb_extended cmd then ⟨-ENOSYS, [], []⟩
  else if is_pmb_8bit cmd = false then ⟨-EINVAL, [], []⟩
  else
    let pec1 : List Bool := if use_pec then [false] else []
    if env.byteRead < 0 then ⟨env.byteRead, [], pec1⟩
    else
      let len : Nat := env.byteRead.toNat
      let pec2 : List Bool := pec1 ++ (if use_pec then [true] else [])
      let tryI2c : Int → BlockResult := fun retval0 =>
        if funcs.i2c then
          if env.rdwrOk = false then ⟨-env.rdwrErr, [], pec2⟩
          else
            let cnt := env.rdwrResp.getD 0 0
            if cnt ≤ read_len then
              ⟨(cnt : Int), (env.rdwrResp.drop 1).take cnt, pec2⟩
            else ⟨-E2BIG, (env.rdwrResp.drop 1).take read_len, pec2⟩
        else ⟨retval0, [], pec2⟩
      if len > 32 then tryI2c (-EFBIG)
      else if funcs.smbusReadBlock = false then tryI2c (-EOPNOTSUPP)
      else if env.smbusOk = false then tryI2c (-env.smbusErr)
      else
        let cnt := env.smbusResp.getD 0 0
        if cnt ≤ read_len then
          if cnt > 32 then tryI2c (-EFBIG)
          else ⟨(cnt : Int), (env.smbusResp.drop 1).take cnt, pec2⟩
        else ⟨-E2BIG, (env.smbusResp.drop 1).take read_len, pec2⟩

/-- Constant part of a `pmbus_cmd_desc` catalog entry as far as the
discovery logic consults it: the command code and the display flags.
The catalog itself (`pmbus_ops[]`) is configuration data; the
definitions below are parameterised over an arbitrary catalog list,
whose entries all carry a tag (the zero-tag sentinel terminates the C
array and is not part of the list). -/
structure CatEntry where
  cmd : Nat
  flags : Nat
deriving DecidableEq, Repr

/-- Variable (device-discovered) part of a `pmbus_cmd_desc`: the query
byte and the two coefficient slots (`c[0]` = write, `c[1]` = read). -/
structure CmdDescVar where
  query : Nat
  cW : Coefficients
  cR : Coefficients
deriving DecidableEq, Repr

/-- State of one `pmdev->op[cmd]` pointer: `NULL` (not probed), the
`&unsupported` sentinel, or a pointer to catalog entry `idx`. -/
inductive Slot where
  | notProbed
  | unsupported
  | resolved (idx : Nat)
deriving DecidableEq, Repr

/-- Mutable per-session state: the sticky `no_query` flag, the 256
`op[]` slot pointers (indexed by command code), and the variable data
of each catalog entry (indexed by catalog position, since the C code
mutates the pointed-to `pmbus_ops[]` entries in place). -/
structure Session where
  no_query : Bool
  op : Nat → Slot
  entries : Nat → CmdDescVar

/-- Zero-initialised variable data of a catalog entry (C static
initialisation). -/
def initDesc : CmdDescVar :=
  { query := 0
    cW := { valid := false, R := 0, m := 0, b := 0 }
    cR := { valid := false, R := 0, m := 0, b := 0 } }

/-- Freshly attached session: `no_query` clear, every slot `NULL`,
every catalog entry's variable data zero. -/
def initSession : Session :=
  { no_query := false, op := fun _ => Slot.notProbed, entries := fun _ => initDesc }

/-- Update one `op[]` slot. -/
def setOp (s : Session) (c : Nat) (sl : Slot) : Session :=
  { s with op := fun x => if x = c then sl else s.op x }

/-- Update one catalog entry's variable data. -/
def setEntry (s : Session) (i : Nat) (d : CmdDescVar) : Session :=
  { s with entries := fun x => if x = i then d else s.entries x }

/-- Adapter environment for one `query()` invocation: the outcome of
the QUERY process call and, on success, the 16-bit response word; plus
the oracles for the coefficient fetches and the VOUT_MODE byte read
that `query()` may go on to perform. -/
structure QueryEnv where
  ok : Bool
  word : Nat
  coefR : CoefEnv
  coefW : CoefEnv
  voutByte : Int
deriving DecidableEq, Repr

/-- Failure condition of the QUERY negotiation in `query()`:
`ioctl(...) < 0 || (word & 0x00ff) != 1` — a transport error, or a low
echo byte different from 1. -/
def queryEchoFails (env : QueryEnv) : Bool :=
  !env.ok || ((env.word % 65536) &&& 0xff != 1)

/-- pmbus_peek.c `query()`, negotiating catalog entry `i`.  Returns the
new session state and the number of QUERY process calls issued (0 when
the command is outside the 8-bit space, otherwise 1).  A transport
failure or echo mismatch sets the sticky `no_query` flag; a response
with bit 7 of the high byte clear binds the slot to the `unsupported`
sentinel; otherwise the query byte is stored, the slot bound to the
entry, DIRECT-format coefficients fetched when the COEFFICIENTS slot is
non-NULL, and for VOUT_MODE the raw mode byte is read and stored as `R`
in both coefficient slots. -/
def query (cat : List CatEntry) (s : Session) (i : Nat) (env : QueryEnv) :
    Session × Nat :=
  let e := cat.getD i ⟨0, 0⟩
  if e.cmd > 0xff then (s, 0)
  else if queryEchoFails env then ({ s with no_query := true }, 1)
  else
    let w := (env.word % 65536) >>> 8
    if w &&& (1 <<< 7) = 0 then (setOp s e.cmd Slot.unsupported, 1)
    else
      let s1 := setEntry s i { s.entries i with query := w }
      let s1 := setOp s1 e.cmd (Slot.resolved i)
      let s2 :=
        if (w >>> 2) &&& 7 = 3 ∧ s1.op PMB_COEFFICIENTS ≠ Slot.notProbed then
          let sr :=
            if w &&& (1 <<< 5) ≠ 0 then
              setEntry s1 i
                { s1.entries i with cR := coefficients env.coefR (s1.entries i).cR }
            else s1
          if w &&& (1 <<< 6) ≠ 0 then
            setEntry sr i
              { sr.entries i with cW := coefficients env.coefW (sr.entries i).cW }
          else sr
        else s1
      if e.cmd = PMB_VOUT_MODE then
        let d := s2.entries i
        (setEntry s2 i
          { d with cW := { d.cW with R := toS8i env.voutByte }
                   cR := { d.cR with R := toS8i env.voutByte } }, 1)
      else (s2, 1)

/-- Position of the first catalog entry whose code equals `c` — the
linear scan `for (op = pmbus_ops; op->tag; op++) if (op->cmd == cmd)`. -/
def findCmd : List CatEntry → Nat → Option Nat
  | [], _ => none
  | e :: es, c => if e.cmd = c then some 0 else (findCmd es c).map (· + 1)

/-- pmbus_peek.c `checksupport`: returns the C result (−1 = can't tell,
0 = no, 1 = yes), the new session state, and the number of QUERY
process calls issued. -/
def checksupport (cat : List CatEntry) (s : Session) (cmd : Nat)
    (env : QueryEnv) : Int × Session × Nat :=
  if is_pmb_extended cmd then (-1, s, 0)
  else if s.op PMB_QUERY = Slot.unsupported ∨ s.no_query = true then (-1, s, 0)
  else
    let p : Session × Nat :=
      if s.op cmd = Slot.notProbed then
        match findCmd cat cmd with
        | some i => query cat s i env
        | none => (s, 0)
      else (s, 0)
    (if p.1.op cmd = Slot.unsupported then 0 else 1, p.1, p.2)

/-- Body of the full-capability sweep of `pmbus_dev_show_p1`:
`for (op = pmbus_ops; !pmdev->no_query && op->tag; op++) query(pmdev, op)`,
walking the catalog from position `i` and consuming one adapter
environment per entry queried. -/
def sweepGo (cat : List CatEntry) : Session → Nat → List QueryEnv → Session
  | s, _, [] => s
  | s, i, env :: envs =>
    if i < cat.length then
      if s.no_query = true then s
      else sweepGo cat (query cat s i env).1 (i + 1) envs
  else s

/-- Full-capability sweep of `pmbus_dev_show_p1` (the early
`if (pmdev->no_query) return` plus the query loop). -/
def sweep (cat : List CatEntry) (s : Session) (envs : List QueryEnv) : Session :=
  if s.no_query = true then s else sweepGo cat s 0 envs

/-- One session operation that can touch discovery state: a
`checksupport` call (the only probing done by the status, value and
command reporting paths), or the full-capability sweep. -/
inductive SessionOp where
  | check (cmd : Nat) (env : QueryEnv)
  | sweepAll (envs : List QueryEnv)

/-- Run one session operation, discarding the reported result. -/
def runOp (cat : List CatEntry) (s : Session) : SessionOp → Session
  | SessionOp.check cmd env => (checksupport cat s cmd env).2.1
  | SessionOp.sweepAll envs => sweep cat s envs

/-- Run a list of session operations in order. -/
def runOps (cat : List CatEntry) (s : Session) (ops : List SessionOp) : Session :=
  ops.foldl (runOp cat) s

/-- Run a list of `checksupport` calls in order. -/
def runChecks (cat : List CatEntry) (s : Session)
    (l : List (Nat × QueryEnv)) : Session :=
  l.foldl (fun s p => (checksupport cat s p.1 p.2).2.1) s

/-- pmbus_peek.c `vout_mode_is_linear`: `false` when the VOUT_MODE slot
is the `unsupported` sentinel, else the test
`(pmdev->op[PMB_VOUT_MODE]->c[0].R & 0xe0) == 0` on the write-direction
`R` byte.  When the slot is still `NULL` the C code dereferences the
null pointer; that outcome is modelled as `none`. -/
def vout_mode_is_linear (s : Session) : Option Bool :=
  match s.op PMB_VOUT_MODE with
  | Slot.unsupported => some false
  | Slot.notProbed => none
  | Slot.resolved i =>
    some (decide ((((s.entries i).cW.R.emod 256).toNat &&& 0xe0) = 0))

/-- VOUT-relative classification guard shared by
`pmbus_dev_show_commands` and `pmbus_dev_show_values`:
`op->flags == FLG_FORMAT_VOUT && vout_mode_is_linear(pmdev)`, with C
short-circuiting (`vout_mode_is_linear` is evaluated only when the
flags test passes). -/
def formatVoutGuard (s : Session) (flags : Nat) : Option Bool :=
  if flags = FLG_FORMAT_VOUT then vout_mode_is_linear s else some false

/-- Trivial coefficient-fetch environment (no path advertised). -/
def coefEnv0 : CoefEnv := ⟨false, false, false, []⟩

/-- Query environment: echo correct, high response byte 0 (bit 7
clear), so the device reports the command unsupported. -/
def envU : QueryEnv := ⟨true, 1, coefEnv0, coefEnv0, 0⟩

/-- Query environment: echo correct, high response byte `0xa0`
(readable and writable, format class 0), so the command resolves. -/
def envS : QueryEnv := ⟨true, 0xa001, coefEnv0, coefEnv0, 0⟩

/-- Query environment: the QUERY process call fails at the transport. -/
def envF : QueryEnv := ⟨false, 0, coefEnv0, coefEnv0, 0⟩

/-- Two-entry sample catalog used for concrete runs. -/
def cat1 : List CatEntry := [⟨0x21, 0⟩, ⟨0x22, 0⟩]

@[simp] theorem setEntry_op (s : Session) (i : Nat) (d : CmdDescVar) :
    (setEntry s i d).op = s.op := rfl

@[simp] theorem setEntry_no_query (s : Session) (i : Nat) (d : CmdDescVar) :
    (setEntry s i d).no_query = s.no_query := rfl

@[simp] theorem setOp_no_query (s : Session) (c : Nat) (sl : Slot) :
    (setOp s c sl).no_query = s.no_query := rfl

theorem setOp_op_ne (s : Session) (c : Nat) (sl : Slot) (x : Nat)
    (h : x ≠ c) : (setOp s c sl).op x = s.op x := by
  simp [setOp, h]

theorem checksupport_of_no_query (cat : List CatEntry) (s : Session)
    (cmd : Nat) (env : QueryEnv) (h : s.no_query = true) :
    checksupport cat s cmd env = (-1, s, 0) := by
  unfold checksupport
  by_cases hx : is_pmb_extended cmd = true
  · simp [hx]
  · simp [hx, h]

theorem sweep_of_no_query (cat : List CatEntry) (s : Session)
    (envs : List QueryEnv) (h : s.no_query = true) :
    sweep cat s envs = s := by
  unfold sweep
  simp [h]

theorem runOp_of_no_query (cat : List CatEntry) (s : Session) (o : SessionOp)
    (h : s.no_query = true) : runOp cat s o = s := by
  cases o with
  | check cmd env => simp [runOp, checksupport_of_no_query cat s cmd env h]
  | sweepAll envs => simp [runOp, sweep_of_no_query cat s envs h]

theorem runOps_cons (cat : List CatEntry) (s : Session) (o : SessionOp)
    (ops : List SessionOp) :
    runOps cat s (o :: ops) = runOps cat (runOp cat s o) ops := rfl

theorem runOps_of_no_query (cat : List CatEntry) :
    ∀ (ops : List SessionOp) (s : Session), s.no_query = true →
      runOps cat s ops = s
  | [], _, _ => rfl
  | o :: ops, s, h => by
    rw [runOps_cons, runOp_of_no_query cat s o h,
      runOps_of_no_query cat ops s h]

theorem query_fail_sets_no_query (cat : List CatEntry) (s : Session)
    (i : Nat) (env : QueryEnv)
    (hc : (cat.getD i ⟨0, 0⟩).cmd ≤ 0xff)
    (hf : queryEchoFails env = true) :
    (query cat s i env).1 = { s with no_query := true } := by
  simp only [query]
  rw [if_neg (not_lt.mpr hc), if_pos hf]

/-- C1: a failed QUERY negotiation (transport error on the process
call, or a low echo byte different from 1) sets the sticky `no_query`
flag, and from then on every `checksupport` call, for every command
code, returns −1 (Unknown), leaves the session unchanged and issues no
further QUERY process call, whatever session operations run in
between. -/
theorem c1_query_failure_sticky (cat : List CatEntry) (s : Session)
    (i : Nat) (env : QueryEnv)
    (hc : (cat.getD i ⟨0, 0⟩).cmd ≤ 0xff)
    (hf : queryEchoFails env = true) :
    (query cat s i env).1.no_query = true ∧
    ∀ (ops : List SessionOp) (cmd : Nat) (env' : QueryEnv),
      checksupport cat (runOps cat (query cat s i env).1 ops) cmd env' =
        (-1, runOps cat (query cat s i env).1 ops, 0) := by
  have h1 : (query cat s i env).1 = { s with no_query := true } :=
    query_fail_sets_no_query cat s i env hc hf
  refine ⟨by rw [h1], ?_⟩
  intro ops cmd env'
  have h2 : (runOps cat (query cat s i env).1 ops).no_query = true := by
    rw [runOps_of_no_query cat ops _ (by rw [h1]), h1]
  exact checksupport_of_no_query _ _ _ _ h2

/-- Closed instance of `c1_query_failure_sticky`: a failing negotiation
for catalog entry 1 of `cat1` on a fresh session, followed by a
`checksupport` for command 0x21. -/
theorem c1_witness :
    (query cat1 initSession 1 envF).1.no_query = true ∧
    checksupport cat1 (runOps cat1 (query cat1 initSession 1 envF).1 [])
        0x21 envU =
      (-1, runOps cat1 (query cat1 initSession 1 envF).1 [], 0) := by
  have h := c1_query_failure_sticky cat1 initSession 1 envF (by decide)
    (by decide)
  exact ⟨h.1, h.2 [] 0x21 envU⟩

theorem findCmd_spec : ∀ (cat : List CatEntry) (c i : Nat),
    findCmd cat c = some i → i < cat.length ∧ (cat.getD i ⟨0, 0⟩).cmd = c := by
  intro cat
  induction cat with
  | nil => intro c i h; simp [findCmd] at h
  | cons e es ih =>
    intro c i h
    simp only [findCmd] at h
    by_cases he : e.cmd = c
    · rw [if_pos he] at h
      cases h
      exact ⟨Nat.succ_pos _, by simpa using he⟩
    · rw [if_neg he] at h
      rcases Option.map_eq_some'.mp h with ⟨j, hj, hji⟩
      subst hji
      rcases ih c j hj with ⟨h1, h2⟩
      exact ⟨Nat.succ_lt_succ h1, by simpa using h2⟩

theorem query_op_ne (cat : List CatEntry) (s : Session) (i : Nat)
    (env : QueryEnv) (x : Nat)
    (hx : x ≠ (cat.getD i ⟨0, 0⟩).cmd) :
    (query cat s i env).1.op x = s.op x := by
  simp only [query]
  generalize hE : cat.getD i ⟨0, 0⟩ = e at hx ⊢
  repeat' split
  all_goals simp [setOp, setEntry, hx]

theorem checksupport_op_preserved (cat : List CatEntry) (s : Session)
    (cmd : Nat) (env : QueryEnv) (x : Nat)
    (hx : s.op x ≠ Slot.notProbed) :
    ((checksupport cat s cmd env).2.1).op x = s.op x := by
  simp only [checksupport]
  by_cases h1 : is_pmb_extended cmd = true
  · rw [if_pos h1]
  · rw [if_neg h1]
    by_cases h2 : s.op PMB_QUERY = Slot.unsupported ∨ s.no_query = true
    · rw [if_pos h2]
    · rw [if_neg h2]
      dsimp only
      by_cases h3 : s.op cmd = Slot.notProbed
      · rw [if_pos h3]
        cases hfc : findCmd cat cmd with
        | none => rfl
        | some i =>
          dsimp only
          have hxc : x ≠ cmd := fun hc => hx (by rw [hc]; exact h3)
          have hcat := (findCmd_spec cat cmd i hfc).2
          exact query_op_ne cat s i env x (by rw [hcat]; exact hxc)
      · rw [if_neg h3]

theorem runChecks_cons (cat : List CatEntry) (s : Session)
    (p : Nat × QueryEnv) (l : List (Nat × QueryEnv)) :
    runChecks cat s (p :: l) =
      runChecks cat ((checksupport cat s p.1 p.2).2.1) l := rfl

theorem runChecks_op_preserved (cat : List CatEntry) :
    ∀ (l : List (Nat × QueryEnv)) (s : Session) (x : Nat),
      s.op x ≠ Slot.notProbed → (runChecks cat s l).op x = s.op x
  | [], _, _, _ => rfl
  | p :: l, s, x, h => by
    rw [runChecks_cons]
    have h1 := checksupport_op_preserved cat s p.1 p.2 x h
    rw [runChecks_op_preserved cat l _ x (by rw [h1]; exact h), h1]

/-- C4 (amended): once an `op[]` slot has left `NotProbed`, no
`checksupport` call — and value/status/command reporting probe only
through `checksupport` — ever changes it again; only the full
capability sweep of `pmbus_dev_show_p1`, which re-issues QUERY for
every catalog entry regardless of slot state, can rebind it. -/
theorem c4_checksupport_slots_permanent (cat : List CatEntry)
    (s : Session) (x : Nat) (l : List (Nat × QueryEnv))
    (h : s.op x ≠ Slot.notProbed) :
    (runChecks cat s l).op x = s.op x :=
  runChecks_op_preserved cat l s x h

/-- Closed instance of `c4_checksupport_slots_permanent`: the bound
slot 0x21 survives a `checksupport` call for 0x22 whose negotiation
fails. -/
theorem c4_witness :
    (runChecks cat1 (setOp initSession 0x21 Slot.unsupported)
        [(0x22, envF)]).op 0x21 =
      (setOp initSession 0x21 Slot.unsupported).op 0x21 :=
  c4_checksupport_slots_permanent cat1 _ 0x21 _ (by decide)

/-- Counterexample to C4 as stated: on `cat1`, a `checksupport` for
command 0x21 binds its slot to `Unsupported`, and the subsequent full
capability sweep re-queries the entry and rebinds the same slot to
`Resolved` — a slot that had left `NotProbed` changes again. -/
theorem c4_counterexample :
    ((checksupport cat1 initSession 0x21 envU).2.1).op 0x21 =
        Slot.unsupported ∧
      (sweep cat1 (checksupport cat1 initSession 0x21 envU).2.1
          [envS, envS]).op 0x21 = Slot.resolved 0 := by
  decide

theorem checksupport_zero_not_extended (cat : List CatEntry) (s : Session)
    (cmd : Nat) (env : QueryEnv)
    (h : (checksupport cat s cmd env).1 = 0) :
    is_pmb_extended cmd = false := by
  cases hx : is_pmb_extended cmd with
  | false => rfl
  | true =>
    exfalso
    unfold checksupport at h
    rw [hx, if_pos rfl] at h
    exact absurd (show (-1 : Int) = 0 from h) (by decide)

theorem checksupport_zero_slot (cat : List CatEntry) (s : Session)
    (cmd : Nat) (env : QueryEnv)
    (h : (checksupport cat s cmd env).1 = 0) :
    (checksupport cat s cmd env).2.1.op cmd = Slot.unsupported := by
  have hx := checksupport_zero_not_extended cat s cmd env h
  simp only [checksupport, hx, Bool.false_eq_true, if_false] at h ⊢
  by_cases h2 : s.op PMB_QUERY = Slot.unsupported ∨ s.no_query = true
  · rw [if_pos h2] at h
    exact absurd (show (-1 : Int) = 0 from h) (by decide)
  · rw [if_neg h2] at h ⊢
    by_cases h3 :
        (if s.op cmd = Slot.notProbed then
            match findCmd cat cmd with
            | some i => query cat s i env
            | none => (s, 0)
          else (s, 0)).1.op cmd = Slot.unsupported
    · exact h3
    · rw [if_neg h3] at h
      exact absurd (show (1 : Int) = 0 from h) (by decide)

theorem checksupport_unsupported_guard (cat : List CatEntry) (s : Session)
    (cmd : Nat) (env : QueryEnv)
    (hx : is_pmb_extended cmd = false)
    (hs : s.op cmd = Slot.unsupported) :
    (checksupport cat s cmd env = (-1, s, 0) ∧
        (s.op PMB_QUERY = Slot.unsupported ∨ s.no_query = true)) ∨
      (checksupport cat s cmd env = (0, s, 0) ∧
        ¬(s.op PMB_QUERY = Slot.unsupported ∨ s.no_query = true)) := by
  simp only [checksupport, hx]
  rw [if_neg (by decide : ¬(false = true))]
  by_cases hg : s.op PMB_QUERY = Slot.unsupported ∨ s.no_query = true
  · exact Or.inl ⟨by rw [if_pos hg], hg⟩
  · refine Or.inr ⟨?_, hg⟩
    rw [if_neg hg]
    have hnp : ¬s.op cmd = Slot.notProbed := by rw [hs]; decide
    rw [if_neg hnp]
    dsimp only
    rw [if_pos hs]

/-- C3 (amended): once `checksupport(cmd)` has returned Unsupported (0)
in a session, no further QUERY negotiation is issued for that `cmd` and
the slot stays bound across any further `checksupport` calls; each
subsequent `checksupport(cmd)` call leaves the session unchanged and
returns 0 — or −1 (Unknown) when the sticky `no_query` flag has
meanwhile been set or the QUERY slot meanwhile bound `Unsupported`,
since those guards precede the slot lookup — and never returns
Supported (1). -/
theorem c3_unsupported_sticky (cat : List CatEntry) (s : Session)
    (cmd : Nat) (env : QueryEnv)
    (h0 : (checksupport cat s cmd env).1 = 0) :
    ∀ (l : List (Nat × QueryEnv)) (env' : QueryEnv),
      (checksupport cat (runChecks cat (checksupport cat s cmd env).2.1 l)
          cmd env').2.2 = 0 ∧
      (checksupport cat (runChecks cat (checksupport cat s cmd env).2.1 l)
          cmd env').2.1 =
        runChecks cat (checksupport cat s cmd env).2.1 l ∧
      ((checksupport cat (runChecks cat (checksupport cat s cmd env).2.1 l)
          cmd env').1 = 0 ∨
       (checksupport cat (runChecks cat (checksupport cat s cmd env).2.1 l)
          cmd env').1 = -1) ∧
      (((runChecks cat (checksupport cat s cmd env).2.1 l).no_query = false ∧
        (runChecks cat (checksupport cat s cmd env).2.1 l).op PMB_QUERY ≠
          Slot.unsupported) →
       (checksupport cat (runChecks cat (checksupport cat s cmd env).2.1 l)
          cmd env').1 = 0) := by
  intro l env'
  have hext := checksupport_zero_not_extended cat s cmd env h0
  have hs1 := checksupport_zero_slot cat s cmd env h0
  have hs2 :
      (runChecks cat (checksupport cat s cmd env).2.1 l).op cmd =
        Slot.unsupported := by
    rw [runChecks_op_preserved cat l _ cmd (by rw [hs1]; decide)]
    exact hs1
  rcases checksupport_unsupported_guard cat
      (runChecks cat (checksupport cat s cmd env).2.1 l) cmd env' hext hs2 with
    ⟨heq, hg⟩ | ⟨heq, hg⟩
  · refine ⟨by rw [heq], by rw [heq], Or.inr (by rw [heq]), ?_⟩
    rintro ⟨hnq, hq⟩
    rcases hg with hg | hg
    · exact absurd hg hq
    · rw [hnq] at hg; exact absurd hg (by decide)
  · exact ⟨by rw [heq], by rw [heq], Or.inl (by rw [heq]), fun _ => by rw [heq]⟩

/-- Closed instance of `c3_unsupported_sticky`: after `checksupport`
for 0x21 on `cat1` returns 0, an immediately following `checksupport`
for 0x21 issues no query, changes nothing and returns 0. -/
theorem c3_witness :
    (checksupport cat1 (runChecks cat1
        (checksupport cat1 initSession 0x21 envU).2.1 []) 0x21 envS).2.2 = 0 ∧
    (checksupport cat1 (runChecks cat1
        (checksupport cat1 initSession 0x21 envU).2.1 []) 0x21 envS).2.1 =
      runChecks cat1 (checksupport cat1 initSession 0x21 envU).2.1 [] ∧
    ((checksupport cat1 (runChecks cat1
        (checksupport cat1 initSession 0x21 envU).2.1 []) 0x21 envS).1 = 0 ∨
     (checksupport cat1 (runChecks cat1
        (checksupport cat1 initSession 0x21 envU).2.1 []) 0x21 envS).1 = -1) ∧
    (((runChecks cat1 (checksupport cat1 initSession 0x21 envU).2.1 []).no_query
        = false ∧
      (runChecks cat1 (checksupport cat1 initSession 0x21 envU).2.1 []).op
          PMB_QUERY ≠ Slot.unsupported) →
     (checksupport cat1 (runChecks cat1
        (checksupport cat1 initSession 0x21 envU).2.1 []) 0x21 envS).1 = 0) :=
  c3_unsupported_sticky cat1 initSession 0x21 envU (by decide) [] envS

/-- Counterexample to C3 as stated: on `cat1`, `checksupport` for 0x21
returns 0 (Unsupported); a `checksupport` for 0x22 whose negotiation
fails then sets the sticky `no_query` flag; the next `checksupport` for
0x21 returns −1 (Unknown), not Unsupported. -/
theorem c3_counterexample :
    (checksupport cat1 initSession 0x21 envU).1 = 0 ∧
      (checksupport cat1
          (checksupport cat1 (checksupport cat1 initSession 0x21 envU).2.1
              0x22 envF).2.1
          0x21 envU).1 = -1 := by
  decide

/-- C9: when the guards pass (command not in the extended namespace,
QUERY slot not bound `Unsupported`, `no_query` clear), `checksupport`
answers from the final test `pmdev->op[cmd] != &unsupported`, so it
returns Supported (1) whenever the slot is not the `unsupported`
sentinel — including a slot still `NULL`: in particular for every
command code absent from the catalog (the scan finds no entry and the
slot stays `NULL`), and on the very call whose negotiation fails and
sets the sticky `no_query` flag (the slot is left unbound). -/
theorem c9_checksupport_default_supported (cat : List CatEntry)
    (s : Session) (cmd : Nat) (env : QueryEnv)
    (hext : is_pmb_extended cmd = false)
    (hq : s.op PMB_QUERY ≠ Slot.unsupported)
    (hnq : s.no_query = false)
    (hnp : s.op cmd = Slot.notProbed) :
    ((checksupport cat s cmd env).1 = 1 ↔
      (checksupport cat s cmd env).2.1.op cmd ≠ Slot.unsupported) ∧
    (findCmd cat cmd = none → checksupport cat s cmd env = (1, s, 0)) ∧
    (∀ i, findCmd cat cmd = some i → queryEchoFails env = true →
      cmd ≤ 0xff →
      (checksupport cat s cmd env).1 = 1 ∧
      (checksupport cat s cmd env).2.1.no_query = true) := by
  have hg : ¬(s.op PMB_QUERY = Slot.unsupported ∨ s.no_query = true) := by
    rintro (h | h)
    · exact hq h
    · rw [hnq] at h; exact absurd h (by decide)
  simp only [checksupport, hext, Bool.false_eq_true, if_false, if_neg hg,
    if_pos hnp]
  refine ⟨?_, ?_, ?_⟩
  · by_cases h3 :
        (match findCmd cat cmd with
          | some i => query cat s i env
          | none => (s, 0)).1.op cmd = Slot.unsupported
    · rw [if_pos h3]
      constructor
      · intro h; exact absurd (show (0 : Int) = 1 from h) (by decide)
      · intro h; exact absurd h3 h
    · rw [if_neg h3]
      exact ⟨fun _ => h3, fun _ => rfl⟩
  · intro hn
    rw [hn]
    dsimp only
    rw [if_neg (by rw [hnp]; decide)]
  · intro i hi hf hc
    rw [hi]
    dsimp only
    have hcat := (findCmd_spec cat cmd i hi).2
    have hqf : (query cat s i env).1 = { s with no_query := true } :=
      query_fail_sets_no_query cat s i env (by rw [hcat]; exact hc) hf
    rw [hqf]
    have hop : ({ s with no_query := true } : Session).op cmd ≠
        Slot.unsupported := by
      show s.op cmd ≠ Slot.unsupported
      rw [hnp]; decide
    rw [if_neg hop]
    exact ⟨rfl, rfl⟩

/-- Closed instance of `c9_checksupport_default_supported`: on `cat1`,
command 0x40 (8-bit, absent from the catalog) yields `(1, s, 0)`, and a
failing negotiation for 0x22 still returns 1 while setting `no_query`. -/
theorem c9_witness :
    checksupport cat1 initSession 0x40 envU = (1, initSession, 0) ∧
      (checksupport cat1 initSession 0x22 envF).1 = 1 ∧
      (checksupport cat1 initSession 0x22 envF).2.1.no_query = true := by
  have ha := c9_checksupport_default_supported cat1 initSession 0x40 envU
    (by decide) (by decide) (by decide) (by decide)
  have hb := c9_checksupport_default_supported cat1 initSession 0x22 envF
    (by decide) (by decide) (by decide) (by decide)
  exact ⟨ha.2.1 (by decide), hb.2.2 1 (by decide) (by decide) (by decide)⟩

theorem vout_none_iff (s : Session) :
    vout_mode_is_linear s = none ↔
      s.op PMB_VOUT_MODE = Slot.notProbed := by
  unfold vout_mode_is_linear
  cases h : s.op PMB_VOUT_MODE <;> simp

/-- C10: `vout_mode_is_linear` only guards against the `unsupported`
sentinel, so its read of the VOUT_MODE descriptor's write-direction `R`
field is a well-defined access exactly when the VOUT_MODE slot is bound
(`Unsupported` or `Resolved`); when the slot is still `NotProbed`
(NULL) the classification guard shared by `pmbus_dev_show_commands`
and `pmbus_dev_show_values` reaches an unguarded null access
(modelled `none`) for any VOUT-flagged command. -/
theorem c10_vout_mode_null_access (s : Session) :
    (vout_mode_is_linear s = none ↔
      s.op PMB_VOUT_MODE = Slot.notProbed) ∧
    (∀ flags : Nat, flags = FLG_FORMAT_VOUT →
      s.op PMB_VOUT_MODE = Slot.notProbed →
      formatVoutGuard s flags = none) := by
  refine ⟨vout_none_iff s, ?_⟩
  intro flags hf hnp
  rw [hf]
  show (if FLG_FORMAT_VOUT = FLG_FORMAT_VOUT then vout_mode_is_linear s
    else some false) = none
  rw [if_pos rfl]
  exact (vout_none_iff s).mpr hnp

/-- Closed instance of `c10_vout_mode_null_access` on a fresh session,
whose VOUT_MODE slot is still `NotProbed`. -/
theorem c10_witness :
    (vout_mode_is_linear initSession = none ↔
      initSession.op PMB_VOUT_MODE = Slot.notProbed) ∧
    formatVoutGuard initSession FLG_FORMAT_VOUT = none :=
  ⟨(c10_vout_mode_null_access initSession).1,
   (c10_vout_mode_null_access initSession).2 FLG_FORMAT_VOUT rfl (by decide)⟩

/-- Block environment whose length-discovery byte read fails with a
transport error (−Eio). -/
def envPecFail : BlockEnv := ⟨-Eio, false, Eio, [], false, Eio, []⟩

/-- Block environment for a successful 2-byte block read. -/
def envPecOk : BlockEnv := ⟨3, true, 0, [2, 7, 8], true, 0, []⟩

/-- C5 (code evaluated at the failing input): with PEC enabled, a
successful block read disables and re-enables PEC around the
length-discovery byte read (`[disable, enable]`, toggled nowhere else),
but when that byte read fails the function returns the error with only
`[disable]` in the toggle trace — PEC is never restored on the failure
path. -/
theorem c5_pec_not_restored_on_failure :
    pmbus_read_block true ⟨true, true⟩ 0x99 4 envPecOk =
        ⟨2, [7, 8], [false, true]⟩ ∧
      pmbus_read_block true ⟨true, true⟩ 0x99 4 envPecFail =
        ⟨-Eio, [], [false]⟩ := by
  decide

/-- C6: a block read whose device-declared length is 40, against a
20-byte destination buffer with the raw-message fallback available,
returns −E2BIG (SizeExceeded) and has copied exactly the first 20
returned data bytes. -/
theorem c6_block_read_partial_copy (use_pec : Bool) (funcs : Funcs)
    (cmd : Nat) (env : BlockEnv) (data : List Nat)
    (h8 : is_pmb_8bit cmd = true)
    (hext : is_pmb_extended cmd = false)
    (hlen : env.byteRead = 40)
    (hi2c : funcs.i2c = true)
    (hok : env.rdwrOk = true)
    (hresp : env.rdwrResp = 40 :: data) :
    (pmbus_read_block use_pec funcs cmd 20 env).retval = -E2BIG ∧
      (pmbus_read_block use_pec funcs cmd 20 env).buf = data.take 20 := by
  constructor <;>
    simp [pmbus_read_block, h8, hext, hlen, hi2c, hok, hresp, E2BIG]

/-- Raw-message response declaring 40 bytes, with payload 0..39. -/
def env40 : BlockEnv := ⟨40, false, 0, [], true, 0, 40 :: List.range 40⟩

/-- Closed instance of `c6_block_read_partial_copy` with payload
`List.range 40`. -/
theorem c6_witness :
    (pmbus_read_block false ⟨false, true⟩ 0x99 20 env40).retval = -E2BIG ∧
      (pmbus_read_block false ⟨false, true⟩ 0x99 20 env40).buf =
        (List.range 40).take 20 :=
  c6_block_read_partial_copy false ⟨false, true⟩ 0x99 env40 (List.range 40)
    (by decide) (by decide) (by decide) (by decide) (by decide) (by decide)

/-- C7: a coefficient fetch whose transport fails (including when
neither path is available) or whose response declares a length other
than 5 returns the addressed coefficient slot exactly as it was; the
slot's `m`, `b`, `R` and validity flag are assigned only when a 5-byte
response arrives over a working path. -/
theorem c7_coefficients_untouched (env : CoefEnv) (c : Coefficients) :
    (((env.hasBlockProcCall = false ∧ env.hasI2C = false) ∨
        env.ok = false ∨ env.resp.getD 0 0 ≠ 5) →
      coefficients env c = c) ∧
    (coefficients env c ≠ c →
      (env.hasBlockProcCall = true ∨ env.hasI2C = true) ∧ env.ok = true ∧
        env.resp.getD 0 0 = 5) := by
  unfold coefficients
  rcases env with ⟨bpc, i2c, ok, resp⟩
  dsimp only
  cases bpc <;> cases i2c <;> cases ok <;>
    by_cases h5 : resp.getD 0 0 = 5 <;>
    constructor <;> intro h <;>
    simp_all [Eio, EOPNOTSUPP]

/-- Coefficient slot with prior values, used as the untouched target. -/
def coefPrior : Coefficients := ⟨true, 3, 7, 9⟩

/-- Coefficient exchange whose response declares length 4. -/
def coefEnvBad : CoefEnv := ⟨true, false, true, [4, 1, 2, 3, 4, 5]⟩

/-- Closed instance of `c7_coefficients_untouched`: a length-4 response
leaves the prior slot exactly unchanged. -/
theorem c7_witness : coefficients coefEnvBad coefPrior = coefPrior :=
  (c7_coefficients_untouched coefEnvBad coefPrior).1
    (Or.inr (Or.inr (by decide)))

/-- C2 (code evaluated at the failing inputs): the LINEAR display case
decodes the raw word 0x0400 — as an 11-bit two's-complement mantissa,
−1024 with exponent 0 — to 0 instead of −1024 (the code negates only
the low 10 mantissa bits), and decodes 0x0801 — mantissa 1 with
exponent 1 — to 1 instead of 2 (the multiply is gated on the mask
0x7100, which omits exponent bit 11). -/
theorem c2_linear11_failing_inputs :
    linear11Decode 0x0400 = 0 ∧ linear11Decode 0x0801 = 1 := by
  decide

/-- DIRECT value display of `pmbus_dev_show_values`: the decode is
driven by the descriptor's read-direction coefficients `op->c[1]`. -/
def showValueDirect (d : CmdDescVar) (raw : Nat) : ℚ :=
  directDecode d.cR raw

theorem mulTenLoop_eq : ∀ (n : Nat) (d : ℚ), mulTenLoop d n = d * 10 ^ n
  | 0, d => by simp [mulTenLoop]
  | n + 1, d => by
    rw [mulTenLoop, mulTenLoop_eq n (d * 10)]
    ring

theorem divTenLoop_eq : ∀ (n : Nat) (d : ℚ), divTenLoop d n = d / 10 ^ n
  | 0, d => by simp [divTenLoop]
  | n + 1, d => by
    rw [divTenLoop, divTenLoop_eq n (d / 10), div_div, ← pow_succ']

/-- C8: the DIRECT decode computes `(signed16(raw) / 10^R − b) / m`
from the read-direction coefficients, the `10^R` scaling being the
repeated multiply/divide-by-10 loops; in particular with R=2, m=1, b=0
a raw word of 250 decodes to 2.5, and with R=−2, m=1, b=0 a raw word
of 3 decodes to 300 (write-direction junk coefficients do not matter). -/
theorem c8_direct_decode (c : Coefficients) (raw : Nat) :
    directDecode c raw =
      (((toS16 raw : Int) : ℚ) / (10 : ℚ) ^ c.R - ((c.b : Int) : ℚ)) /
        ((c.m : Int) : ℚ) ∧
    showValueDirect ⟨0, ⟨true, 9, 9, 9⟩, ⟨true, 2, 1, 0⟩⟩ 250 = 5 / 2 ∧
    showValueDirect ⟨0, ⟨true, 9, 9, 9⟩, ⟨true, -2, 1, 0⟩⟩ 3 = 300 := by
  refine ⟨?_, ?_, ?_⟩
  · unfold directDecode
    have key : ∀ d : ℚ,
        (if c.R < 0 then mulTenLoop d (-c.R).toNat
          else if 0 < c.R then divTenLoop d c.R.toNat else d) =
          d / 10 ^ c.R := by
      intro d
      by_cases h1 : c.R < 0
      · rw [if_pos h1, mulTenLoop_eq]
        have hn : ((-c.R).toNat : Int) = -c.R :=
          Int.toNat_of_nonneg (by omega)
        have h2 : (10 : ℚ) ^ c.R = ((10 : ℚ) ^ (-c.R).toNat)⁻¹ := by
          calc (10 : ℚ) ^ c.R = (10 : ℚ) ^ (-(-c.R)) := by rw [neg_neg]
            _ = ((10 : ℚ) ^ (-c.R))⁻¹ := zpow_neg 10 (-c.R)
            _ = ((10 : ℚ) ^ ((-c.R).toNat : Int))⁻¹ := by rw [hn]
            _ = ((10 : ℚ) ^ (-c.R).toNat)⁻¹ := by rw [zpow_natCast]
        rw [h2, div_eq_mul_inv, inv_inv]
      · rw [if_neg h1]
        by_cases h3 : 0 < c.R
        · rw [if_pos h3, divTenLoop_eq]
          congr 1
          rw [← zpow_natCast, Int.toNat_of_nonneg (by omega)]
        · rw [if_neg h3]
          have h0 : c.R = 0 := by omega
          rw [h0]
          norm_num
    dsimp only
    rw [key]
  · norm_num [showValueDirect, directDecode, divTenLoop, toS16]
  · norm_num [showValueDirect, directDecode, mulTenLoop, toS16]

end PmbusPeek
